import Mathlib

/-!
Verification of the CT municipal-election scraper (`json_scraper.py`).

The script's JSON objects (Python dicts) are modelled as association lists in
insertion order; `d.get(k, default)` becomes a first-match lookup with default,
and `d[k] = v` becomes an in-place update that appends fresh keys at the end,
which is exactly Python's dict-ordering behaviour.  Tabular data (pandas
DataFrames) is modelled as lists of row records; the numeric coercion
`pd.to_numeric(col.str.replace(",", ""), errors="coerce")` is modelled as
comma-stripping and whitespace-trimming followed by a parse of the
signed / decimal / exponent numeral into its exact rational value
(`Option Rat`), with `none` standing for the missing (NaN) value.  The HTTP
layer is modelled by an
abstract fetch environment recording the outcome of each of the five fetches
the script can make.
-/

namespace CtScraper

/-- A JSON object / Python dict in insertion order. -/
abbrev Assoc (α : Type) := List (String × α)

/-- First-match association lookup: the model of Python `d.get(k)`. -/
def lookupA {α : Type} : Assoc α → String → Option α
  | [], _ => none
  | (k, v) :: t, key => if k = key then some v else lookupA t key

/-- Python `d.get(k, default)`. -/
def getA {α : Type} (m : Assoc α) (k : String) (d : α) : α :=
  (lookupA m k).getD d

/-- Python dict assignment `m[k] = v`: an existing key is updated in place,
a fresh key is appended at the end. -/
def insertA {α : Type} : Assoc α → String → α → Assoc α
  | [], k, v => [(k, v)]
  | (k', v') :: t, k, v => if k' = k then (k, v) :: t else (k', v') :: insertA t k v

/-- A vote-tally record `{"V": ..., "TO": ...}` from `townVotes`. -/
structure Tally where
  V : Option String
  TO : Option String
deriving DecidableEq

/-- A candidate record `{"NM": ..., "P": ...}` from `candidateIds`. -/
structure CandRec where
  NM : Option String
  P : Option String
deriving DecidableEq

/-- A party record `{"NM": ...}` from `partyIds`. -/
structure PartyRec where
  NM : Option String
deriving DecidableEq

/-- An office record `{"NM": ...}` from the entries of `officeList`. -/
structure OfficeRec where
  NM : Option String
deriving DecidableEq

/-- A per-town turnout record from `voterTurnout`. -/
structure TurnoutRec where
  NM : Option String
  EV : Option String
  VV : Option String
  TO : Option String
deriving DecidableEq

/-- A per-town status record `{"PR": ...}` from `townStatus`. -/
structure StatusRec where
  PR : Option String
deriving DecidableEq

/-- The lookup document (`Lookup.json` / `Lookupdata.json`). -/
structure LookupDoc where
  townIds : Assoc String
  partyIds : Assoc PartyRec
  candidateIds : Assoc CandRec
  officeList : List (Assoc OfficeRec)

/-- The election document (`Election.json` / `Electiondata.json`). -/
structure ElectionDoc where
  townVotes : Assoc (Assoc (List (Assoc Tally)))
  voterTurnout : Assoc TurnoutRec
  townStatus : Assoc StatusRec

/-- The version marker document (`Version.json`); `.get("Version")` yields
`None` when the field is absent, hence the `Option`. -/
structure VersionDoc where
  Version : Option String
deriving DecidableEq

/-- One `out[str(k)] = v.get("NM", "")` step of `build_office_map`. -/
def officeInsert (out : Assoc String) (kv : String × OfficeRec) : Assoc String :=
  insertA out kv.1 (kv.2.NM.getD "")

/-- `build_office_map`: folds `officeList` into a single office-id → name map,
`out[str(k)] = v.get("NM", "")` per entry (later entries overwrite earlier). -/
def build_office_map (lst : List (Assoc OfficeRec)) : Assoc String :=
  lst.foldl (fun out item => item.foldl officeInsert out) []

/-- Strip every comma: `str.replace(",", "")` on a column value. -/
def stripCommas (s : String) : List Char :=
  s.data.filter (fun c => c ≠ ',')

/-- Numeric value of a digit character. -/
def digitVal (c : Char) : Nat := c.toNat - 48

/-- Decimal value of a digit string. -/
def digitsToNat (l : List Char) : Nat :=
  l.foldl (fun acc c => acc * 10 + digitVal c) 0

/-- `10 ^ n` as an exact rational. -/
def pow10 (n : Nat) : Rat := (10 : Rat) ^ n

/-- Scale a mantissa by a signed decimal exponent. -/
def applyExp (q : Rat) (e : Int) : Rat :=
  if 0 ≤ e then q * pow10 e.toNat else q / pow10 (-e).toNat

/-- Optional leading sign of a numeral. -/
def splitSign : List Char → Int × List Char
  | '+' :: t => (1, t)
  | '-' :: t => (-1, t)
  | l => (1, l)

/-- Leading digit run of a numeral and the remaining input. -/
def splitDigits (l : List Char) : List Char × List Char :=
  (l.takeWhile Char.isDigit, l.dropWhile Char.isDigit)

/-- Fraction digits after a decimal point, when one is present, and the
remaining input. -/
def splitFrac : List Char → List Char × List Char
  | '.' :: t => splitDigits t
  | l => ([], l)

/-- Exact value of `sign integerPart.fractionPart`. -/
def mantissaVal (sgn : Int) (ipart fpart : List Char) : Rat :=
  ((sgn * (digitsToNat (ipart ++ fpart) : Int) : Int) : Rat) / pow10 fpart.length

/-- The exponent clause `[eE][+-]?digits` that may end a numeral: `0` when the
input is empty, the signed exponent when the clause is well formed and
consumes the whole input, `none` otherwise. -/
def parseExp : List Char → Option Int
  | [] => some 0
  | c :: t =>
    if c = 'e' ∨ c = 'E' then
      if (splitDigits (splitSign t).2).1 ≠ [] ∧ (splitDigits (splitSign t).2).2 = [] then
        some ((splitSign t).1 * (digitsToNat (splitDigits (splitSign t).2).1 : Int))
      else none
    else none

/-- Parse one finite numeral the way `pd.to_numeric` accepts numbers:
optional sign, then digits with an optional decimal point (at least one digit
on either side of it), then an optional exponent clause; anything left over,
or no mantissa digit at all, fails.  The value is the exact rational the
numeral denotes. -/
def parseNumeral (l : List Char) : Option Rat :=
  if (splitDigits (splitSign l).2).1 = [] ∧ (splitFrac (splitDigits (splitSign l).2).2).1 = []
  then none
  else
    match parseExp (splitFrac (splitDigits (splitSign l).2).2).2 with
    | some e =>
      some (applyExp
        (mantissaVal (splitSign l).1 (splitDigits (splitSign l).2).1
          (splitFrac (splitDigits (splitSign l).2).2).1) e)
    | none => none

/-- Surrounding whitespace removal, which `pd.to_numeric` tolerates around a
numeral. -/
def trimWs (l : List Char) : List Char :=
  ((l.dropWhile Char.isWhitespace).reverse.dropWhile Char.isWhitespace).reverse

/-- The characters that can occur in any string `pd.to_numeric` parses to a
number: digits, whitespace, the comma (removed upstream by the
`str.replace`), signs, the decimal point, the exponent markers, and the
letters of the `inf` / `infinity` / `nan` spellings.  A string containing
any other character can only coerce to the missing value. -/
def numChar (c : Char) : Bool :=
  c.isDigit || c.isWhitespace || c = ',' || c = '+' || c = '-' || c = '.' ||
    c = 'e' || c = 'E' || c = 'i' || c = 'I' || c = 'n' || c = 'N' ||
    c = 'f' || c = 'F' || c = 't' || c = 'T' || c = 'y' || c = 'Y' ||
    c = 'a' || c = 'A'

/-- `pd.to_numeric(x.astype(str).str.replace(",", ""), errors="coerce")` on
one cell: strip the commas, trim surrounding whitespace, and parse the
signed / decimal / exponent numeral; an unparseable value is the missing
value (`none`, pandas NaN).  The model carries the exact rational value: the
program's float64 representation coincides with it on every integer below
`2 ^ 53` (the bound under which the exactness theorem is stated) and
approximates it beyond that, and the infinity spellings, which denote no
finite number and occur in no tally, are outside the model's domain. -/
def toNumeric (s : String) : Option Rat :=
  parseNumeral (trimWs (stripCommas s))

/-- A results row as built inside the `parse_results` loop, before the numeric
post-processing of the `votes` column. -/
structure RawResultRow where
  town_name : String
  office_name : String
  candidate_name : String
  party : String
  votes : String
  percent : String
  town_id : String
  office_id : String
  candidate_id : String
deriving DecidableEq

/-- A results row after the `votes` column has been coerced to numeric. -/
structure ResultRow where
  town_name : String
  office_name : String
  candidate_name : String
  party : String
  votes : Option Rat
  percent : String
  town_id : String
  office_id : String
  candidate_id : String
deriving DecidableEq

/-- The row `parse_results` appends for one `(town, office, candidate, tally)`
tuple: every lookup miss degrades to the empty string. -/
def mkResultRow (lookup : LookupDoc) (offices : Assoc String)
    (tid oid cid : String) (vals : Tally) : RawResultRow :=
  { town_name := getA lookup.townIds tid ""
    office_name := getA offices oid ""
    candidate_name := ((lookupA lookup.candidateIds cid).bind CandRec.NM).getD ""
    party := ((lookupA lookup.partyIds
        (((lookupA lookup.candidateIds cid).bind CandRec.P).getD "")).bind
        PartyRec.NM).getD ""
    votes := vals.V.getD ""
    percent := vals.TO.getD ""
    town_id := tid
    office_id := oid
    candidate_id := cid }

/-- The nested loop of `parse_results`: every town in `townVotes`, every office
under it, every entry of its candidate sequence, every candidate-tally pair of
that entry. -/
def rawResultRows (lookup : LookupDoc) (election : ElectionDoc) : List RawResultRow :=
  let offices := build_office_map lookup.officeList
  election.townVotes.flatMap (fun tc =>
    tc.2.flatMap (fun oc =>
      oc.2.flatMap (fun entry =>
        entry.map (fun cv => mkResultRow lookup offices tc.1 oc.1 cv.1 cv.2))))

/-- Numeric post-processing of one results row (`df["votes"] = pd.to_numeric(...)`). -/
def coerceResultRow (r : RawResultRow) : ResultRow :=
  { town_name := r.town_name
    office_name := r.office_name
    candidate_name := r.candidate_name
    party := r.party
    votes := toNumeric r.votes
    percent := r.percent
    town_id := r.town_id
    office_id := r.office_id
    candidate_id := r.candidate_id }

/-- `parse_results(lookup, election)`: the nested traversal followed by the
numeric coercion of the `votes` column. -/
def parse_results (lookup : LookupDoc) (election : ElectionDoc) : List ResultRow :=
  (rawResultRows lookup election).map coerceResultRow

/-- A turnout row before numeric coercion of `electors` / `votes_cast`. -/
structure RawTurnoutRow where
  town_id : String
  town_name : String
  precincts_reported : String
  electors : String
  votes_cast : String
  turnout_percent : String
deriving DecidableEq

/-- A turnout row after the numeric post-processing. -/
structure TurnoutRow where
  town_id : String
  town_name : String
  precincts_reported : String
  electors : Option Rat
  votes_cast : Option Rat
  turnout_percent : String
deriving DecidableEq

/-- The row `parse_turnout` appends for one town of `voterTurnout`:
`precincts_reported` is cross-referenced from `townStatus`, not taken from the
turnout record, and a missing status degrades to the empty string. -/
def mkTurnoutRow (townStatus : Assoc StatusRec) (tid : String)
    (d : TurnoutRec) : RawTurnoutRow :=
  { town_id := tid
    town_name := d.NM.getD ""
    precincts_reported := ((lookupA townStatus tid).bind StatusRec.PR).getD ""
    electors := d.EV.getD ""
    votes_cast := d.VV.getD ""
    turnout_percent := d.TO.getD "" }

/-- Numeric post-processing of one turnout row. -/
def coerceTurnoutRow (r : RawTurnoutRow) : TurnoutRow :=
  { town_id := r.town_id
    town_name := r.town_name
    precincts_reported := r.precincts_reported
    electors := toNumeric r.electors
    votes_cast := toNumeric r.votes_cast
    turnout_percent := r.turnout_percent }

/-- The loop of `parse_turnout`: one row per town of `voterTurnout`. -/
def rawTurnoutRows (election : ElectionDoc) : List RawTurnoutRow :=
  election.voterTurnout.map (fun td => mkTurnoutRow election.townStatus td.1 td.2)

/-- `parse_turnout(election)`: one row per town of `voterTurnout`, then the
numeric coercion of `electors` and `votes_cast`. -/
def parse_turnout (election : ElectionDoc) : List TurnoutRow :=
  (rawTurnoutRows election).map coerceTurnoutRow

/-- The static party-name translation table `PARTY_ES`. -/
def PARTY_ES : Assoc String :=
  [("Democratic Party", "Partido Demócrata"),
   ("Republican Party", "Partido Republicano"),
   ("Working Families Party", "Partido de Familias Trabajadoras"),
   ("Green Party", "Partido Verde"),
   ("Independent Party", "Partido Independiente"),
   ("Write In", "Candidato por escrito"),
   ("Petitioning Candidate", "Candidato por petición"),
   ("Conservative Party", "Partido Conservador")]

/-- `PARTY_ES.get(x, x)`: translate a party name with identity fallback. -/
def translateParty (x : String) : String :=
  (lookupA PARTY_ES x).getD x

/-- A Spanish results row. -/
structure ESResultRow where
  Ciudad : String
  Cargo : String
  Candidato : String
  Partido : String
  Votos : Option Rat
  Porcentaje : String
deriving DecidableEq

/-- The per-row content of `to_es_results`: relabel the columns and translate
the party name. -/
def esResultRow (r : ResultRow) : ESResultRow :=
  { Ciudad := r.town_name
    Cargo := r.office_name
    Candidato := r.candidate_name
    Partido := translateParty r.party
    Votos := r.votes
    Porcentaje := r.percent }

/-- `to_es_results(df)`: the empty table keeps its (Spanish) headers and no
rows; otherwise each row is relabelled with the party name translated. -/
def to_es_results (df : List ResultRow) : List ESResultRow :=
  if df = [] then [] else df.map esResultRow

/-- Replace every occurrence of the literal substring `" of "` by `" de "`,
scanning left to right and continuing after each replacement, exactly as
`str.replace(" of ", " de ")` does. -/
def ofToDe : List Char → List Char
  | ' ' :: 'o' :: 'f' :: ' ' :: rest => ' ' :: 'd' :: 'e' :: ' ' :: ofToDe rest
  | c :: rest => c :: ofToDe rest
  | [] => []

/-- String wrapper for `ofToDe`. -/
def ofToDeStr (s : String) : String :=
  ⟨ofToDe s.data⟩

/-- Does the literal substring `" of "` occur anywhere in the list? -/
def hasOfSub : List Char → Bool
  | ' ' :: 'o' :: 'f' :: ' ' :: _ => true
  | _ :: rest => hasOfSub rest
  | [] => false

/-- A Spanish turnout row. -/
structure ESTurnoutRow where
  Ciudad : String
  PrecintosReportados : String
  Habilitados : Option Rat
  Votantes : Option Rat
  Participacion : String
deriving DecidableEq

/-- The per-row content of `to_es_turnout`: relabel the columns and localize
the precincts-reported separator. -/
def esTurnoutRow (r : TurnoutRow) : ESTurnoutRow :=
  { Ciudad := r.town_name
    PrecintosReportados := ofToDeStr r.precincts_reported
    Habilitados := r.electors
    Votantes := r.votes_cast
    Participacion := r.turnout_percent }

/-- `to_es_turnout(df)`: the empty table keeps its (Spanish) headers and no
rows; otherwise each row is relabelled with `" of "` localized to `" de "`. -/
def to_es_turnout (df : List TurnoutRow) : List ESTurnoutRow :=
  if df = [] then [] else df.map esTurnoutRow

/-- Aliasing model of `to_es_results`: the body copies the input (`df.copy()`),
mutates the party column of the copy only, and projects the Spanish columns
from the copy; the pair returns the Spanish table together with the final
state of the input table. -/
def to_es_results_st (df : List ResultRow) : List ESResultRow × List ResultRow :=
  if df = [] then ([], df) else
  let df2 := df
  let df2 := df2.map (fun r => { r with party := translateParty r.party })
  (df2.map (fun r =>
    { Ciudad := r.town_name, Cargo := r.office_name, Candidato := r.candidate_name
      Partido := r.party, Votos := r.votes, Porcentaje := r.percent }), df)

/-- Aliasing model of `to_es_turnout`, in the same style. -/
def to_es_turnout_st (df : List TurnoutRow) : List ESTurnoutRow × List TurnoutRow :=
  if df = [] then ([], df) else
  let df2 := df
  let df2 := df2.map (fun r =>
    { r with precincts_reported := ofToDeStr r.precincts_reported })
  (df2.map (fun r =>
    { Ciudad := r.town_name, PrecintosReportados := r.precincts_reported
      Habilitados := r.electors, Votantes := r.votes_cast
      Participacion := r.turnout_percent }), df)

/-- An error raised by `get_json`: `requests.HTTPError` from
`raise_for_status()` (non-2xx), or any other exception (network failure,
malformed JSON). -/
inductive FetchErr where
  | http (msg : String)
  | other (msg : String)
deriving DecidableEq

/-- The message a Python exception formats to. -/
def FetchErr.msg : FetchErr → String
  | .http m => m
  | .other m => m

/-- Outcome of one `get_json` call. -/
abbrev FetchResult (α : Type) := Except FetchErr α

/-- The abstract fetch environment: the outcome of each document fetch the
script can attempt.  The versioned fetches depend on the version string
interpolated into the URL (`None` included, as Python would format it). -/
structure Env where
  version : FetchResult VersionDoc
  lookupPlain : FetchResult LookupDoc
  electionPlain : FetchResult ElectionDoc
  lookupVersioned : Option String → FetchResult LookupDoc
  electionVersioned : Option String → FetchResult ElectionDoc

/-- The wrapped fatal message:
`RuntimeError(f"Could not fetch election {eid}: {e}")`. -/
def wrapMsg (eid : Nat) (cause : String) : String :=
  "Could not fetch election " ++ toString eid ++ ": " ++ cause

/-- The versioned-path retry: fetch `Lookupdata.json` then `Electiondata.json`
from the version-qualified path; any failure there escapes to the outer
handler and is wrapped. -/
def tryVersioned (env : Env) (eid : Nat) (ver : Option String) :
    Except String (LookupDoc × ElectionDoc × Option String) :=
  match env.lookupVersioned ver with
  | .error e => .error (wrapMsg eid e.msg)
  | .ok lk =>
    match env.electionVersioned ver with
    | .error e => .error (wrapMsg eid e.msg)
    | .ok el => .ok (lk, el, ver)

/-- `fetch_lookup_election(eid)`: get the version marker, try the plain URLs,
fall back to the versioned URLs only on `requests.HTTPError`, and wrap every
other failure into the single fatal `RuntimeError`. -/
def fetch_lookup_election (env : Env) (eid : Nat) :
    Except String (LookupDoc × ElectionDoc × Option String) :=
  match env.version with
  | .error e => .error (wrapMsg eid e.msg)
  | .ok vdoc =>
    match env.lookupPlain with
    | .error (.http _) => tryVersioned env eid vdoc.Version
    | .error e => .error (wrapMsg eid e.msg)
    | .ok lk =>
      match env.electionPlain with
      | .error (.http _) => tryVersioned env eid vdoc.Version
      | .error e => .error (wrapMsg eid e.msg)
      | .ok el => .ok (lk, el, vdoc.Version)

/-- The four tables `main` builds before anything is published. -/
structure Workbook where
  results_en : List ResultRow
  turnout_en : List TurnoutRow
  results_es : List ESResultRow
  turnout_es : List ESTurnoutRow

/-- The table-building part of `main`: fetch, then derive the four tables; a
fetch failure aborts before any table exists, so no partial output is ever
handed to the publisher. -/
def runMain (env : Env) (eid : Nat) : Except String Workbook :=
  match fetch_lookup_election env eid with
  | .error e => .error e
  | .ok (lk, el, _) =>
    let df_res := parse_results lk el
    let df_turn := parse_turnout el
    .ok { results_en := df_res, turnout_en := df_turn
          results_es := to_es_results df_res, turnout_es := to_es_turnout df_turn }

/-- The number of candidate-tally entries in `townVotes`: over every town,
every office under it, every entry of its candidate sequence, every
candidate-tally pair of that entry. -/
def countTallies (tv : Assoc (Assoc (List (Assoc Tally)))) : Nat :=
  (tv.map (fun tc =>
    (tc.2.map (fun oc => (oc.2.map List.length).sum)).sum)).sum

/-- Render digit groups as a comma-grouped numeral, e.g.
`[['1'], ['2','3','4']] ↦ "1,234"`: the spec-side notion of a string written
with comma thousands-separators. -/
def renderGrouped : List (List Char) → List Char
  | [] => []
  | [g] => g
  | g :: gs => g ++ ',' :: renderGrouped gs

/-- The value bound to a key by the LAST of its occurrences in an
association list, the reference point for last-wins overwrite semantics. -/
def lookupLast {α : Type} : List (String × α) → String → Option α
  | [], _ => none
  | (k', v) :: t, k =>
    match lookupLast t k with
    | some r => some r
    | none => if k' = k then some v else none

/-- The office identifiers occurring across all entries of an `officeList`,
in order. -/
def allKeys (lst : List (Assoc OfficeRec)) : List String :=
  lst.flatten.map Prod.fst

/-- The lookup document of the spec's worked example. -/
def exLookup : LookupDoc :=
  { townIds := [("5", "Hartford")]
    partyIds := [("1", { NM := some "Democratic Party" })]
    candidateIds := [("100", { NM := some "Jane Doe", P := some "1" })]
    officeList := [[("10", { NM := some "Mayor" })]] }

/-- A lookup document resolving nothing: every identifier misses. -/
def emptyLookup : LookupDoc :=
  { townIds := [], partyIds := [], candidateIds := [], officeList := [] }

/-- The election document of the spec's worked example. -/
def exElection : ElectionDoc :=
  { townVotes := [("5", [("10", [[("100", { V := some "1,234", TO := some "55%" })]])])]
    voterTurnout := []
    townStatus := [] }

/-- An election document whose single turnout town is absent from
`townStatus`. -/
def exElecNoStatus : ElectionDoc :=
  { townVotes := []
    voterTurnout := [("7", { NM := some "Storrs", EV := some "100",
                             VV := some "40", TO := some "40%" })]
    townStatus := [] }

/-- An environment where the plain URLs answer with HTTP 404 and the
versioned URLs succeed. -/
def exEnvHttp : Env :=
  { version := .ok { Version := some "7" }
    lookupPlain := .error (.http "404 Client Error")
    electionPlain := .error (.http "404 Client Error")
    lookupVersioned := fun _ => .ok exLookup
    electionVersioned := fun _ => .ok exElection }

/-- An environment where fetching the version marker itself fails with a
network error. -/
def exEnvVerFail : Env :=
  { version := .error (.other "connection refused")
    lookupPlain := .ok exLookup
    electionPlain := .ok exElection
    lookupVersioned := fun _ => .ok exLookup
    electionVersioned := fun _ => .ok exElection }


theorem lookupA_eq_none_of_not_mem {α : Type} :
    ∀ (m : Assoc α) (k : String), k ∉ m.map Prod.fst → lookupA m k = none := by
  intro m
  induction m with
  | nil => intro k _; rfl
  | cons kv t ih =>
    intro k hk
    simp only [List.map_cons, List.mem_cons, not_or] at hk
    rw [lookupA, if_neg (fun h => hk.1 h.symm), ih k hk.2]

theorem lookupLast_eq_none_of_not_mem {α : Type} :
    ∀ (m : List (String × α)) (k : String), k ∉ m.map Prod.fst → lookupLast m k = none := by
  intro m
  induction m with
  | nil => intro k _; rfl
  | cons kv t ih =>
    intro k hk
    simp only [List.map_cons, List.mem_cons, not_or] at hk
    obtain ⟨k1, v1⟩ := kv
    rw [lookupLast, ih k hk.2, if_neg (fun h => hk.1 h.symm)]

theorem lookupA_insertA {α : Type} :
    ∀ (m : Assoc α) (k k' : String) (v : α),
      lookupA (insertA m k v) k' = if k = k' then some v else lookupA m k' := by
  intro m
  induction m with
  | nil => intro k k' v; simp [insertA, lookupA]
  | cons kv t ih =>
    intro k k' v
    obtain ⟨k1, v1⟩ := kv
    by_cases h1 : k1 = k
    · subst h1
      simp only [insertA, if_pos rfl, lookupA]
      by_cases h2 : k1 = k'
      · simp [h2]
      · simp [h2]
    · simp only [insertA, if_neg h1, lookupA, ih]
      by_cases h2 : k1 = k'
      · subst h2
        rw [if_pos rfl, if_pos rfl, if_neg (fun h => h1 h.symm)]
      · rw [if_neg h2, if_neg h2]

theorem foldl_officeInsert_lookup :
    ∀ (es : List (String × OfficeRec)) (m : Assoc String) (k : String),
      lookupA (es.foldl officeInsert m) k
        = (match lookupLast es k with
           | some r => some (r.NM.getD "")
           | none => lookupA m k) := by
  intro es
  induction es with
  | nil => intro m k; rfl
  | cons kv t ih =>
    intro m k
    obtain ⟨k1, r1⟩ := kv
    rw [List.foldl_cons, ih, lookupLast]
    cases h : lookupLast t k with
    | some r => simp [h]
    | none =>
      simp only [h]
      rw [officeInsert, lookupA_insertA]
      by_cases h1 : k1 = k <;> simp [h1]

theorem foldl_nested_eq_foldl_flatten :
    ∀ (lst : List (Assoc OfficeRec)) (m : Assoc String),
      lst.foldl (fun out item => item.foldl officeInsert out) m
        = lst.flatten.foldl officeInsert m := by
  intro lst
  induction lst with
  | nil => intro m; rfl
  | cons item lst ih =>
    intro m
    rw [List.foldl_cons, ih, List.flatten_cons, List.foldl_append]

theorem lookupA_build_office_map :
    ∀ (lst : List (Assoc OfficeRec)) (k : String),
      lookupA (build_office_map lst) k
        = (lookupLast lst.flatten k).map (fun r => r.NM.getD "") := by
  intro lst k
  rw [build_office_map, foldl_nested_eq_foldl_flatten, foldl_officeInsert_lookup]
  cases lookupLast lst.flatten k <;> rfl

theorem lookupLast_eq_lookupA_of_nodup {α : Type} :
    ∀ (es : List (String × α)), (es.map Prod.fst).Nodup →
      ∀ k, lookupLast es k = lookupA es k := by
  intro es
  induction es with
  | nil => intro _ _; rfl
  | cons kv t ih =>
    intro hnd k
    obtain ⟨k1, v1⟩ := kv
    simp only [List.map_cons, List.nodup_cons] at hnd
    rw [lookupLast, lookupA]
    by_cases h1 : k1 = k
    · subst h1
      rw [lookupLast_eq_none_of_not_mem t k1 hnd.1]
      simp
    · rw [if_neg h1, if_neg h1, ih hnd.2]
      cases lookupA t k <;> rfl

theorem lookupA_perm {α : Type} :
    ∀ {l₁ l₂ : List (String × α)}, l₁.Perm l₂ → (l₁.map Prod.fst).Nodup →
      ∀ k, lookupA l₁ k = lookupA l₂ k := by
  intro l₁ l₂ hp
  induction hp with
  | nil => intro _ _; rfl
  | cons x h ih =>
    intro hnd k
    obtain ⟨k1, v1⟩ := x
    simp only [List.map_cons, List.nodup_cons] at hnd
    rw [lookupA, lookupA, ih hnd.2 k]
  | swap x y l =>
    intro hnd k
    obtain ⟨k1, v1⟩ := x
    obtain ⟨k2, v2⟩ := y
    simp only [List.map_cons, List.nodup_cons, List.mem_cons] at hnd
    have hne : k2 ≠ k1 := fun h => hnd.1 (Or.inl h)
    by_cases ha : k2 = k <;> by_cases hb : k1 = k
    · exact absurd (ha.trans hb.symm) hne
    · simp [lookupA, ha, hb]
    · simp [lookupA, ha, hb]
    · simp [lookupA, ha, hb]
  | trans h1 h2 ih1 ih2 =>
    intro hnd k
    have hnd2 := ((h1.map Prod.fst).nodup_iff).mp hnd
    rw [ih1 hnd k, ih2 hnd2 k]

theorem flatten_perm {α : Type} {l₁ l₂ : List (List α)} (h : l₁.Perm l₂) :
    l₁.flatten.Perm l₂.flatten := by
  induction h with
  | nil => rfl
  | cons x h ih => simpa [List.flatten_cons] using ih.append_left x
  | swap x y l =>
    simp only [List.flatten_cons]
    rw [← List.append_assoc, ← List.append_assoc]
    exact List.perm_append_comm.append_right _
  | trans h1 h2 ih1 ih2 => exact ih1.trans ih2

theorem ofToDe_of_not_hasOfSub :
    ∀ l : List Char, hasOfSub l = false → ofToDe l = l := by
  intro l
  induction l using ofToDe.induct with
  | case1 rest ih => intro h; simp [hasOfSub] at h
  | case2 c rest hne ih =>
    intro h
    rw [hasOfSub.eq_2 c rest hne] at h
    rw [ofToDe.eq_2 c rest hne, ih h]
  | case3 => intro _; rfl

theorem hasOfSub_iff :
    ∀ l : List Char,
      hasOfSub l = true ↔ ∃ p q, l = p ++ ' ' :: 'o' :: 'f' :: ' ' :: q := by
  intro l
  constructor
  · intro h
    induction l using hasOfSub.induct with
    | case1 rest => exact ⟨[], rest, rfl⟩
    | case2 c rest hne ih =>
      rw [hasOfSub.eq_2 c rest hne] at h
      obtain ⟨p, q, rfl⟩ := ih h
      exact ⟨c :: p, q, rfl⟩
    | case3 => simp [hasOfSub] at h
  · rintro ⟨p, q, rfl⟩
    induction p with
    | nil => exact hasOfSub.eq_1 q
    | cons c p ih =>
      show hasOfSub (c :: (p ++ (' ' :: 'o' :: 'f' :: ' ' :: q))) = true
      by_cases hc : ∃ r, c = ' ' ∧ p ++ (' ' :: 'o' :: 'f' :: ' ' :: q) = 'o' :: 'f' :: ' ' :: r
      · obtain ⟨r, rfl, ht⟩ := hc
        rw [ht]
        exact hasOfSub.eq_1 r
      · rw [hasOfSub.eq_2 c _ (fun r h1 h2 => hc ⟨r, h1, h2⟩)]
        exact ih

theorem to_es_results_eq_map (df : List ResultRow) :
    to_es_results df = df.map esResultRow := by
  cases df with
  | nil => rfl
  | cons r t => rw [to_es_results, if_neg (by simp)]

theorem to_es_turnout_eq_map (df : List TurnoutRow) :
    to_es_turnout df = df.map esTurnoutRow := by
  cases df with
  | nil => rfl
  | cons r t => rw [to_es_turnout, if_neg (by simp)]


theorem renderGrouped_filter :
    ∀ gs : List (List Char), (∀ g ∈ gs, ∀ c ∈ g, c ≠ ',') →
      (renderGrouped gs).filter (fun c => c ≠ ',') = gs.flatten := by
  intro gs
  induction gs using renderGrouped.induct with
  | case1 => intro _; rfl
  | case2 g =>
    intro h
    simp only [renderGrouped]
    rw [List.filter_eq_self.mpr (fun c hc => by simpa using h g (by simp) c hc)]
    simp
  | case3 g gs hgs ih =>
    intro h
    rw [renderGrouped.eq_3 g gs hgs, List.filter_append]
    rw [List.filter_eq_self.mpr (fun c hc => by simpa using h g (by simp) c hc)]
    rw [List.filter_cons, if_neg (by simp)]
    rw [ih (fun g' hg' c hc => h g' (List.mem_cons_of_mem _ hg') c hc)]
    simp

theorem takeWhile_all {p : Char → Bool} :
    ∀ l : List Char, (∀ c ∈ l, p c = true) → l.takeWhile p = l := by
  intro l
  induction l with
  | nil => intro _; rfl
  | cons x t ih =>
    intro h
    rw [List.takeWhile_cons, h x (List.mem_cons_self x t),
      ih (fun c hc => h c (List.mem_cons_of_mem x hc))]
    simp

theorem dropWhile_all {p : Char → Bool} :
    ∀ l : List Char, (∀ c ∈ l, p c = true) → l.dropWhile p = [] := by
  intro l
  induction l with
  | nil => intro _; rfl
  | cons x t ih =>
    intro h
    rw [List.dropWhile_cons, h x (List.mem_cons_self x t),
      ih (fun c hc => h c (List.mem_cons_of_mem x hc))]
    simp

theorem dropWhile_eq_self_of_all {p : Char → Bool} :
    ∀ l : List Char, (∀ c ∈ l, p c = false) → l.dropWhile p = l := by
  intro l h
  cases l with
  | nil => rfl
  | cons x t =>
    rw [List.dropWhile_cons, h x (List.mem_cons_self x t)]
    simp

theorem mem_dropWhile_of_neg {p : Char → Bool} :
    ∀ (l : List Char) (c : Char), c ∈ l → p c = false → c ∈ l.dropWhile p := by
  intro l
  induction l with
  | nil => intro c hc _; exact absurd hc (by simp)
  | cons x t ih =>
    intro c hc hp
    rw [List.dropWhile_cons]
    cases hx : p x with
    | true =>
      rw [if_pos rfl]
      rcases List.mem_cons.mp hc with rfl | h
      · rw [hx] at hp
        exact absurd hp (by simp)
      · exact ih c h hp
    | false =>
      rw [if_neg (by simp)]
      exact hc

theorem trimWs_eq_self :
    ∀ l : List Char, (∀ c ∈ l, c.isWhitespace = false) → trimWs l = l := by
  intro l h
  rw [trimWs, dropWhile_eq_self_of_all l h,
    dropWhile_eq_self_of_all l.reverse (fun c hc => h c (List.mem_reverse.mp hc)),
    List.reverse_reverse]

theorem mem_trimWs {c : Char} :
    ∀ l : List Char, c ∈ l → c.isWhitespace = false → c ∈ trimWs l := by
  intro l hc hw
  rw [trimWs]
  refine List.mem_reverse.mpr (mem_dropWhile_of_neg _ c ?_ hw)
  exact List.mem_reverse.mpr (mem_dropWhile_of_neg _ c hc hw)

theorem not_ws_of_digit :
    ∀ c : Char, c.isDigit = true → c.isWhitespace = false := by
  intro c h
  have hs : c ≠ ' ' := fun he => absurd (he ▸ h) (by decide)
  have ht : c ≠ '\t' := fun he => absurd (he ▸ h) (by decide)
  have hr : c ≠ '\r' := fun he => absurd (he ▸ h) (by decide)
  have hn : c ≠ '\n' := fun he => absurd (he ▸ h) (by decide)
  simp [Char.isWhitespace, hs, ht, hr, hn]

theorem splitSign_sub :
    ∀ (l : List Char) (c : Char), c ∈ l →
      c = '+' ∨ c = '-' ∨ c ∈ (splitSign l).2 := by
  intro l c hc
  cases l with
  | nil => exact absurd hc (by simp)
  | cons x t =>
    by_cases hx : x = '+'
    · subst hx
      rcases List.mem_cons.mp hc with rfl | h
      · exact Or.inl rfl
      · exact Or.inr (Or.inr h)
    · by_cases hy : x = '-'
      · subst hy
        rcases List.mem_cons.mp hc with rfl | h
        · exact Or.inr (Or.inl rfl)
        · exact Or.inr (Or.inr h)
      · rw [splitSign.eq_3 (x :: t)
          (fun t' he => hx (by injection he with a b; try exact a))
          (fun t' he => hy (by injection he with a b; try exact a))]
        exact Or.inr (Or.inr hc)

theorem splitFrac_digits :
    ∀ l : List Char, ∀ c ∈ (splitFrac l).1, c.isDigit = true := by
  intro l c hc
  cases l with
  | nil => exact absurd hc (by simp [splitFrac])
  | cons x t =>
    by_cases hx : x = '.'
    · subst hx
      have hc' : c ∈ t.takeWhile Char.isDigit := hc
      exact List.mem_takeWhile_imp hc'
    · rw [splitFrac.eq_2 (x :: t)
        (fun t' he => hx (by injection he with a b; try exact a))] at hc
      exact absurd hc (by simp)

theorem splitFrac_sub :
    ∀ (l : List Char) (c : Char), c ∈ l →
      c = '.' ∨ c ∈ (splitFrac l).1 ∨ c ∈ (splitFrac l).2 := by
  intro l c hc
  cases l with
  | nil => exact absurd hc (by simp)
  | cons x t =>
    by_cases hx : x = '.'
    · subst hx
      rcases List.mem_cons.mp hc with rfl | h
      · exact Or.inl rfl
      · have hsp := List.takeWhile_append_dropWhile (p := Char.isDigit) (l := t)
        rw [← hsp] at h
        rcases List.mem_append.mp h with h1 | h1
        · exact Or.inr (Or.inl h1)
        · exact Or.inr (Or.inr h1)
    · rw [splitFrac.eq_2 (x :: t)
        (fun t' he => hx (by injection he with a b; try exact a))]
      exact Or.inr (Or.inr hc)

theorem parseExp_chars :
    ∀ (l : List Char) (e : Int), parseExp l = some e →
      ∀ c ∈ l, numChar c = true := by
  intro l e h c hc
  cases l with
  | nil => exact absurd hc (by simp)
  | cons x t =>
    rw [parseExp.eq_2] at h
    by_cases hx : x = 'e' ∨ x = 'E'
    · rw [if_pos hx] at h
      by_cases hcond :
          (splitDigits (splitSign t).2).1 ≠ [] ∧ (splitDigits (splitSign t).2).2 = []
      · rcases List.mem_cons.mp hc with rfl | hct
        · rcases hx with rfl | rfl <;> decide
        · rcases splitSign_sub t c hct with h1 | h1 | h1
          · rw [h1]; decide
          · rw [h1]; decide
          · have hsp := List.takeWhile_append_dropWhile (p := Char.isDigit)
              (l := (splitSign t).2)
            rw [← hsp] at h1
            rcases List.mem_append.mp h1 with h2 | h2
            · simp [numChar, List.mem_takeWhile_imp h2]
            · have hnil : (splitSign t).2.dropWhile Char.isDigit = [] := hcond.2
              rw [hnil] at h2
              exact absurd h2 (by simp)
      · rw [if_neg hcond] at h
        exact absurd h (by simp)
    · rw [if_neg hx] at h
      exact absurd h (by simp)

theorem parseNumeral_some_chars :
    ∀ (m : List Char) (q : Rat), parseNumeral m = some q →
      ∀ c ∈ m, numChar c = true := by
  intro m q h c hc
  unfold parseNumeral at h
  by_cases h0 : (splitDigits (splitSign m).2).1 = []
      ∧ (splitFrac (splitDigits (splitSign m).2).2).1 = []
  · rw [if_pos h0] at h
    exact absurd h (by simp)
  · rw [if_neg h0] at h
    cases hexp : parseExp (splitFrac (splitDigits (splitSign m).2).2).2 with
    | none =>
      rw [hexp] at h
      exact absurd h (by simp)
    | some e =>
      rcases splitSign_sub m c hc with h1 | h1 | h1
      · rw [h1]; decide
      · rw [h1]; decide
      · have hsp := List.takeWhile_append_dropWhile (p := Char.isDigit)
          (l := (splitSign m).2)
        rw [← hsp] at h1
        rcases List.mem_append.mp h1 with h2 | h2
        · simp [numChar, List.mem_takeWhile_imp h2]
        · have h2' : c ∈ (splitDigits (splitSign m).2).2 := h2
          rcases splitFrac_sub _ c h2' with h3 | h3 | h3
          · rw [h3]; decide
          · simp [numChar, splitFrac_digits _ c h3]
          · exact parseExp_chars _ e hexp c h3

theorem toNumeric_none_of_bad_char :
    ∀ (s : String) (c : Char), c ∈ s.data → numChar c = false →
      toNumeric s = none := by
  intro s c hc hbad
  have hcomma : c ≠ ',' := by
    intro he
    rw [he] at hbad
    exact absurd hbad (by decide)
  have hws : c.isWhitespace = false := by
    cases hw : c.isWhitespace
    · rfl
    · simp only [numChar, hw] at hbad
      simp at hbad
  have h1 : c ∈ stripCommas s := by
    rw [stripCommas]
    exact List.mem_filter.mpr ⟨hc, by simpa using hcomma⟩
  have h2 : c ∈ trimWs (stripCommas s) := mem_trimWs _ h1 hws
  cases hres : parseNumeral (trimWs (stripCommas s)) with
  | none => exact hres
  | some q =>
    have hall := parseNumeral_some_chars _ q hres c h2
    rw [hbad] at hall
    exact absurd hall (by simp)

theorem toNumeric_digitString :
    ∀ (s : String) (d : List Char), trimWs (stripCommas s) = d → d ≠ [] →
      (∀ c ∈ d, c.isDigit = true) →
      toNumeric s = some ((digitsToNat d : Nat) : Rat) := by
  intro s d hd hne hdig
  have h1 : toNumeric s = parseNumeral d := by
    unfold toNumeric
    rw [hd]
  rw [h1]
  cases d with
  | nil => exact absurd rfl hne
  | cons c0 t =>
    have hc0 : c0.isDigit = true := hdig c0 (List.mem_cons_self c0 t)
    have hplus : c0 ≠ '+' := fun he => absurd (he ▸ hc0) (by decide)
    have hminus : c0 ≠ '-' := fun he => absurd (he ▸ hc0) (by decide)
    have hss : splitSign (c0 :: t) = (1, c0 :: t) :=
      splitSign.eq_3 (c0 :: t)
        (fun t' he => hplus (by injection he with a b; try exact a))
        (fun t' he => hminus (by injection he with a b; try exact a))
    have hsd : splitDigits (c0 :: t) = (c0 :: t, []) := by
      rw [splitDigits, takeWhile_all _ hdig, dropWhile_all _ hdig]
    have hf : splitFrac ([] : List Char) = ([], []) := rfl
    have hp : parseExp ([] : List Char) = some (0 : Int) := rfl
    unfold parseNumeral
    simp only [hss, hsd, hf, hp]
    rw [if_neg (by simp)]
    simp [applyExp, mantissaVal, pow10]

theorem toNumeric_grouped :
    ∀ gs : List (List Char), gs ≠ [] →
      (∀ g ∈ gs, g ≠ [] ∧ ∀ c ∈ g, c.isDigit = true) →
      toNumeric (String.mk (renderGrouped gs))
        = some ((digitsToNat gs.flatten : Nat) : Rat) := by
  intro gs hne h
  have hnc : ∀ g ∈ gs, ∀ c ∈ g, c ≠ ',' := by
    intro g hg c hc hq
    have hd := (h g hg).2 c hc
    rw [hq] at hd
    exact absurd hd (by decide)
  have hdig : ∀ c ∈ gs.flatten, c.isDigit = true := by
    intro c hc
    obtain ⟨g, hg, hcg⟩ := List.mem_flatten.mp hc
    exact (h g hg).2 c hcg
  have hstrip : stripCommas (String.mk (renderGrouped gs)) = gs.flatten := by
    have hs0 : stripCommas (String.mk (renderGrouped gs))
        = (renderGrouped gs).filter (fun c => c ≠ ',') := rfl
    rw [hs0]
    exact renderGrouped_filter gs hnc
  have hfne : gs.flatten ≠ [] := by
    cases gs with
    | nil => exact absurd rfl hne
    | cons g rest =>
      have hg := (h g (List.mem_cons_self g rest)).1
      cases g with
      | nil => exact absurd rfl hg
      | cons c0 t => simp
  refine toNumeric_digitString _ gs.flatten ?_ hfne hdig
  rw [hstrip]
  exact trimWs_eq_self gs.flatten (fun c hc => not_ws_of_digit c (hdig c hc))

/-- C1: `parse_results` yields exactly one row per candidate-tally entry of
`townVotes` (every town, every office, every entry of its candidate
sequence), resolving names through `townIds`, the merged office map,
`candidateIds` and `partyIds`, with every miss degrading to the empty
string; on the spec's worked example it yields the single Hartford / Mayor /
Jane Doe / Democratic Party row with numeric votes 1234 and percent "55%". -/
theorem parse_results_one_row_per_tally :
    (∀ (l : LookupDoc) (e : ElectionDoc),
      (parse_results l e).length = countTallies e.townVotes)
    ∧ parse_results exLookup exElection =
        [{ town_name := "Hartford", office_name := "Mayor",
           candidate_name := "Jane Doe", party := "Democratic Party",
           votes := some 1234, percent := "55%",
           town_id := "5", office_id := "10", candidate_id := "100" }]
    ∧ parse_results emptyLookup exElection =
        [{ town_name := "", office_name := "", candidate_name := "", party := "",
           votes := some 1234, percent := "55%",
           town_id := "5", office_id := "10", candidate_id := "100" }] := by
  refine ⟨fun l e => ?_, ?_, ?_⟩
  · simp [parse_results, rawResultRows, countTallies, List.length_flatMap,
      List.map_map, Function.comp_def]
  · have h34 : digitsToNat ['1', '2', '3', '4'] = 1234 := by decide
    have hv : toNumeric "1,234" = some (1234 : Rat) := by
      rw [toNumeric_digitString "1,234" ['1', '2', '3', '4'] (by decide) (by decide)
        (by decide), h34]
      norm_num
    simp [parse_results, rawResultRows, mkResultRow, coerceResultRow, exLookup,
      exElection, build_office_map, officeInsert, insertA, lookupA, getA, hv]
  · have h34 : digitsToNat ['1', '2', '3', '4'] = 1234 := by decide
    have hv : toNumeric "1,234" = some (1234 : Rat) := by
      rw [toNumeric_digitString "1,234" ['1', '2', '3', '4'] (by decide) (by decide)
        (by decide), h34]
      norm_num
    simp [parse_results, rawResultRows, mkResultRow, coerceResultRow, emptyLookup,
      exElection, build_office_map, officeInsert, insertA, lookupA, getA, hv]

/-- C2: every town of `voterTurnout` produces exactly one turnout row; its
precincts-reported field is looked up in `townStatus` (a cross-reference
join), and a town absent from `townStatus` keeps its row with an
empty-string precincts-reported field. -/
theorem parse_turnout_one_row_per_town :
    (∀ e : ElectionDoc, (parse_turnout e).length = e.voterTurnout.length)
    ∧ (∀ e : ElectionDoc,
        (parse_turnout e).map (fun r => (r.town_id, r.precincts_reported))
          = e.voterTurnout.map (fun td =>
              (td.1, ((lookupA e.townStatus td.1).bind StatusRec.PR).getD "")))
    ∧ parse_turnout exElecNoStatus =
        [{ town_id := "7", town_name := "Storrs", precincts_reported := "",
           electors := some 100, votes_cast := some 40,
           turnout_percent := "40%" }] := by
  refine ⟨fun e => ?_, fun e => ?_, ?_⟩
  · simp [parse_turnout, rawTurnoutRows]
  · simp [parse_turnout, rawTurnoutRows, coerceTurnoutRow, mkTurnoutRow,
      List.map_map, Function.comp_def]
  · have h100 : digitsToNat ['1', '0', '0'] = 100 := by decide
    have h40 : digitsToNat ['4', '0'] = 40 := by decide
    have hv1 : toNumeric "100" = some (100 : Rat) := by
      rw [toNumeric_digitString "100" ['1', '0', '0'] (by decide) (by decide)
        (by decide), h100]
      norm_num
    have hv2 : toNumeric "40" = some (40 : Rat) := by
      rw [toNumeric_digitString "40" ['4', '0'] (by decide) (by decide)
        (by decide), h40]
      norm_num
    simp [parse_turnout, rawTurnoutRows, mkTurnoutRow, coerceTurnoutRow,
      exElecNoStatus, lookupA, hv1, hv2]

/-- C3: after post-processing, a vote count equals the exact integer obtained
by removing the comma thousands-separators whenever the raw value is a
comma-grouped digit string (below `2 ^ 53`, where the program's int64 /
float64 arithmetic represents the integer exactly), and is the missing
numeric value whenever the raw value contains a character that no numeral
accepted by the coercion can contain; signed, decimal and scientific
numerals coerce to their exact values ("-5", "3.5", "1e3"); the same
cleaning-and-coercion applies to the electors and votes-cast columns of the
turnout table, and the coercion is a total function (it never raises). -/
theorem numeric_coercion_policy :
    (∀ (l : LookupDoc) (e : ElectionDoc),
      (parse_results l e).map ResultRow.votes
        = (rawResultRows l e).map (fun r => toNumeric r.votes))
    ∧ (∀ e : ElectionDoc,
      (parse_turnout e).map TurnoutRow.electors
        = (rawTurnoutRows e).map (fun r => toNumeric r.electors))
    ∧ (∀ e : ElectionDoc,
      (parse_turnout e).map TurnoutRow.votes_cast
        = (rawTurnoutRows e).map (fun r => toNumeric r.votes_cast))
    ∧ (∀ gs : List (List Char), gs ≠ [] →
        (∀ g ∈ gs, g ≠ [] ∧ ∀ c ∈ g, c.isDigit = true) →
        digitsToNat gs.flatten < 2 ^ 53 →
        toNumeric (String.mk (renderGrouped gs))
          = some ((digitsToNat gs.flatten : Nat) : Rat))
    ∧ (∀ (s : String) (c : Char), c ∈ s.data → numChar c = false →
        toNumeric s = none)
    ∧ toNumeric "-5" = some (-5)
    ∧ toNumeric "3.5" = some (7 / 2)
    ∧ toNumeric "1e3" = some 1000 := by
  refine ⟨fun l e => ?_, fun e => ?_, fun e => ?_,
    fun gs h1 h2 _ => toNumeric_grouped gs h1 h2, toNumeric_none_of_bad_char,
    ?_, ?_, ?_⟩
  · simp [parse_results, coerceResultRow, List.map_map, Function.comp_def]
  · simp [parse_turnout, coerceTurnoutRow, List.map_map, Function.comp_def]
  · simp [parse_turnout, coerceTurnoutRow, List.map_map, Function.comp_def]
  · have ht : trimWs (stripCommas "-5") = ['-', '5'] := by decide
    have hss : splitSign ['-', '5'] = (-1, ['5']) := by decide
    have hsd : splitDigits ['5'] = (['5'], []) := by decide
    have hf : splitFrac ([] : List Char) = ([], []) := rfl
    have hp : parseExp ([] : List Char) = some (0 : Int) := rfl
    have hdg : digitsToNat ['5'] = 5 := by decide
    unfold toNumeric
    rw [ht]
    unfold parseNumeral
    simp only [hss, hsd, hf, hp]
    rw [if_neg (by simp)]
    norm_num [applyExp, mantissaVal, pow10, hdg, Int.toNat_ofNat]
  · have ht : trimWs (stripCommas "3.5") = ['3', '.', '5'] := by decide
    have hss : splitSign ['3', '.', '5'] = (1, ['3', '.', '5']) := by decide
    have hsd : splitDigits ['3', '.', '5'] = (['3'], ['.', '5']) := by decide
    have hf : splitFrac ['.', '5'] = (['5'], []) := by decide
    have hp : parseExp ([] : List Char) = some (0 : Int) := rfl
    have hdg : digitsToNat ['3', '5'] = 35 := by decide
    unfold toNumeric
    rw [ht]
    unfold parseNumeral
    simp only [hss, hsd, hf, hp]
    rw [if_neg (by simp)]
    norm_num [applyExp, mantissaVal, pow10, hdg, Int.toNat_ofNat]
  · have ht : trimWs (stripCommas "1e3") = ['1', 'e', '3'] := by decide
    have hss : splitSign ['1', 'e', '3'] = (1, ['1', 'e', '3']) := by decide
    have hsd : splitDigits ['1', 'e', '3'] = (['1'], ['e', '3']) := by decide
    have hf : splitFrac ['e', '3'] = ([], ['e', '3']) := by decide
    have hp : parseExp ['e', '3'] = some (3 : Int) := by decide
    have hdg : digitsToNat ['1'] = 1 := by decide
    have htn : Int.toNat 3 = 3 := rfl
    unfold toNumeric
    rw [ht]
    unfold parseNumeral
    simp only [hss, hsd, hf, hp]
    rw [if_neg (by simp)]
    norm_num [applyExp, mantissaVal, pow10, hdg, htn]

/-- Witness for C3 at concrete inputs: the comma-grouped "1,234" cleans to
exactly 1234, and "12x", which contains the letter x, coerces to the missing
value. -/
theorem numeric_coercion_policy_witness :
    toNumeric (String.mk (renderGrouped [['1'], ['2', '3', '4']]))
        = some ((digitsToNat [['1'], ['2', '3', '4']].flatten : Nat) : Rat)
    ∧ toNumeric "12x" = none :=
  ⟨numeric_coercion_policy.2.2.2.1 [['1'], ['2', '3', '4']] (by decide) (by decide)
      (by decide),
   numeric_coercion_policy.2.2.2.2.1 "12x" 'x' (by decide) (by decide)⟩

/-- C4: localization is a pure per-row relabeling: `to_es_results` and
`to_es_turnout` both return exactly the row-wise image of their input, so
row counts agree and order is preserved. -/
theorem localization_preserves_row_count_and_order :
    (∀ df : List ResultRow, to_es_results df = df.map esResultRow)
    ∧ (∀ df : List ResultRow, (to_es_results df).length = df.length)
    ∧ (∀ df : List TurnoutRow, to_es_turnout df = df.map esTurnoutRow)
    ∧ (∀ df : List TurnoutRow, (to_es_turnout df).length = df.length) := by
  refine ⟨to_es_results_eq_map, fun df => ?_, to_es_turnout_eq_map, fun df => ?_⟩
  · rw [to_es_results_eq_map, List.length_map]
  · rw [to_es_turnout_eq_map, List.length_map]

/-- C5: in the Spanish results table the party column is the original party
name passed through `PARTY_ES`: every key of the translation table is
replaced by its value, and every name absent from the table passes through
unchanged. -/
theorem party_translation_with_identity_fallback :
    (∀ df : List ResultRow, (to_es_results df).map ESResultRow.Partido
        = df.map (fun r => translateParty r.party))
    ∧ (∀ kv ∈ PARTY_ES, translateParty kv.1 = kv.2)
    ∧ (∀ x : String, x ∉ PARTY_ES.map Prod.fst → translateParty x = x) := by
  refine ⟨fun df => ?_, by decide, fun x hx => ?_⟩
  · rw [to_es_results_eq_map]
    simp [esResultRow, List.map_map, Function.comp_def]
  · rw [translateParty, lookupA_eq_none_of_not_mem PARTY_ES x hx, Option.getD_none]

/-- Witness for C5 at concrete inputs: a party in the table is translated,
one absent from the table passes through unchanged. -/
theorem party_translation_witness :
    translateParty "Green Party" = "Partido Verde"
    ∧ translateParty "Libertarian Party" = "Libertarian Party" :=
  ⟨party_translation_with_identity_fallback.2.1 ("Green Party", "Partido Verde")
      (by decide),
   party_translation_with_identity_fallback.2.2 "Libertarian Party" (by decide)⟩

/-- C6: `to_es_turnout` localizes the precincts-reported field by replacing
every occurrence of the literal substring " of " with " de " and changes
nothing else: "3 of 5" becomes exactly "3 de 5", and a string with no " of "
substring passes through unchanged (the last conjunct characterizes the
substring test). -/
theorem precincts_of_to_de_substitution :
    (∀ df : List TurnoutRow, (to_es_turnout df).map ESTurnoutRow.PrecintosReportados
        = df.map (fun r => ofToDeStr r.precincts_reported))
    ∧ ofToDeStr "3 of 5" = "3 de 5"
    ∧ (∀ s : String, hasOfSub s.data = false → ofToDeStr s = s)
    ∧ (∀ l : List Char,
        hasOfSub l = true ↔ ∃ p q, l = p ++ ' ' :: 'o' :: 'f' :: ' ' :: q) := by
  refine ⟨fun df => ?_, by rfl, fun s hs => ?_, hasOfSub_iff⟩
  · rw [to_es_turnout_eq_map]
    simp [esTurnoutRow, List.map_map, Function.comp_def]
  · show String.mk (ofToDe s.data) = s
    rw [ofToDe_of_not_hasOfSub s.data hs]

/-- Witness for C6 at a concrete input: "reported" has no " of " substring
and passes through unchanged. -/
theorem precincts_of_to_de_witness :
    ofToDeStr "reported" = "reported" ∧ hasOfSub (' ' :: 'o' :: 'f' :: ' ' :: []) = true :=
  ⟨precincts_of_to_de_substitution.2.2.1 "reported" (by decide),
   (precincts_of_to_de_substitution.2.2.2 (' ' :: 'o' :: 'f' :: ' ' :: [])).mpr
     ⟨[], [], rfl⟩⟩

/-- C7: when a plain-path fetch of the lookup or election document fails with
an HTTP-level error, `fetch_lookup_election` retries both documents from the
version-qualified path (using the version string from the version marker)
and succeeds when that path returns valid documents. -/
theorem fetch_http_fallback_succeeds :
    (∀ (env : Env) (eid : Nat) (vdoc : VersionDoc) (m : String)
        (lk : LookupDoc) (el : ElectionDoc),
      env.version = .ok vdoc →
      env.lookupPlain = .error (.http m) →
      env.lookupVersioned vdoc.Version = .ok lk →
      env.electionVersioned vdoc.Version = .ok el →
      fetch_lookup_election env eid = .ok (lk, el, vdoc.Version))
    ∧ (∀ (env : Env) (eid : Nat) (vdoc : VersionDoc) (lk0 : LookupDoc) (m : String)
        (lk : LookupDoc) (el : ElectionDoc),
      env.version = .ok vdoc →
      env.lookupPlain = .ok lk0 →
      env.electionPlain = .error (.http m) →
      env.lookupVersioned vdoc.Version = .ok lk →
      env.electionVersioned vdoc.Version = .ok el →
      fetch_lookup_election env eid = .ok (lk, el, vdoc.Version)) := by
  constructor
  · intro env eid vdoc m lk el hv hlp hlv hev
    simp [fetch_lookup_election, tryVersioned, hv, hlp, hlv, hev]
  · intro env eid vdoc lk0 m lk el hv hlp hep hlv hev
    simp [fetch_lookup_election, tryVersioned, hv, hlp, hep, hlv, hev]

/-- Witness for C7: a concrete environment whose plain URLs answer 404 and
whose versioned URLs succeed. -/
theorem fetch_http_fallback_witness :
    fetch_lookup_election exEnvHttp 97 = .ok (exLookup, exElection, some "7") :=
  fetch_http_fallback_succeeds.1 exEnvHttp 97 { Version := some "7" }
    "404 Client Error" exLookup exElection rfl rfl rfl rfl

theorem tryVersioned_error_wrapped :
    ∀ (env : Env) (eid : Nat) (ver : Option String) (msg : String),
      tryVersioned env eid ver = .error msg → ∃ cause, msg = wrapMsg eid cause := by
  intro env eid ver msg h
  unfold tryVersioned at h
  cases hlv : env.lookupVersioned ver with
  | error e =>
    rw [hlv] at h
    injection h with h'
    exact ⟨e.msg, h'.symm⟩
  | ok lk =>
    rw [hlv] at h
    cases hev : env.electionVersioned ver with
    | error e =>
      rw [hev] at h
      injection h with h'
      exact ⟨e.msg, h'.symm⟩
    | ok el =>
      rw [hev] at h
      simp at h

/-- C8: every failure path of `fetch_lookup_election` other than the
successful HTTP fallback raises the single wrapped fatal error whose message
carries the election identifier and the original cause (version-marker
failure, non-HTTP plain-fetch failure, and failure of the versioned retry
itself), and a fetch failure aborts `main` before any table is built, so no
partial output is produced. -/
theorem fetch_failures_wrapped_fatal :
    (∀ (env : Env) (eid : Nat) (msg : String),
      fetch_lookup_election env eid = .error msg →
      ∃ cause, msg = wrapMsg eid cause)
    ∧ (∀ (env : Env) (eid : Nat) (e : FetchErr),
      env.version = .error e →
      fetch_lookup_election env eid = .error (wrapMsg eid e.msg))
    ∧ (∀ (env : Env) (eid : Nat) (vdoc : VersionDoc) (m : String),
      env.version = .ok vdoc → env.lookupPlain = .error (.other m) →
      fetch_lookup_election env eid = .error (wrapMsg eid m))
    ∧ (∀ (env : Env) (eid : Nat) (vdoc : VersionDoc) (lk : LookupDoc) (m : String),
      env.version = .ok vdoc → env.lookupPlain = .ok lk →
      env.electionPlain = .error (.other m) →
      fetch_lookup_election env eid = .error (wrapMsg eid m))
    ∧ (∀ (env : Env) (eid : Nat) (vdoc : VersionDoc) (m : String) (e : FetchErr),
      env.version = .ok vdoc → env.lookupPlain = .error (.http m) →
      env.lookupVersioned vdoc.Version = .error e →
      fetch_lookup_election env eid = .error (wrapMsg eid e.msg))
    ∧ (∀ (env : Env) (eid : Nat) (msg : String),
      fetch_lookup_election env eid = .error msg →
      runMain env eid = .error msg) := by
  refine ⟨?_, ?_, ?_, ?_, ?_, ?_⟩
  · intro env eid msg h
    unfold fetch_lookup_election at h
    cases hv : env.version with
    | error e =>
      rw [hv] at h
      injection h with h'
      exact ⟨e.msg, h'.symm⟩
    | ok vdoc =>
      rw [hv] at h
      cases hlp : env.lookupPlain with
      | error fe =>
        rw [hlp] at h
        cases fe with
        | http m => exact tryVersioned_error_wrapped env eid vdoc.Version msg h
        | other m =>
          injection h with h'
          exact ⟨m, h'.symm⟩
      | ok lk =>
        rw [hlp] at h
        cases hep : env.electionPlain with
        | error fe =>
          rw [hep] at h
          cases fe with
          | http m => exact tryVersioned_error_wrapped env eid vdoc.Version msg h
          | other m =>
            injection h with h'
            exact ⟨m, h'.symm⟩
        | ok el =>
          rw [hep] at h
          simp at h
  · intro env eid e hv
    simp [fetch_lookup_election, hv]
  · intro env eid vdoc m hv hlp
    simp [fetch_lookup_election, hv, hlp, FetchErr.msg]
  · intro env eid vdoc lk m hv hlp hep
    simp [fetch_lookup_election, hv, hlp, hep, FetchErr.msg]
  · intro env eid vdoc m e hv hlp hlv
    simp [fetch_lookup_election, tryVersioned, hv, hlp, hlv]
  · intro env eid msg h
    simp [runMain, h]

/-- Witness for C8: a concrete environment whose version-marker fetch fails
with a network error; the run aborts with the wrapped message and builds no
tables. -/
theorem fetch_failures_wrapped_fatal_witness :
    fetch_lookup_election exEnvVerFail 97
        = .error (wrapMsg 97 "connection refused")
    ∧ runMain exEnvVerFail 97 = .error (wrapMsg 97 "connection refused") :=
  ⟨fetch_failures_wrapped_fatal.2.1 exEnvVerFail 97 (.other "connection refused") rfl,
   fetch_failures_wrapped_fatal.2.2.2.2.2 exEnvVerFail 97 _
     (fetch_failures_wrapped_fatal.2.1 exEnvVerFail 97 (.other "connection refused") rfl)⟩

/-- C9 counterexample: the merge is NOT order-independent in the presence of
duplicate office identifiers — permuting an `officeList` whose two entries
bind the same identifier to different names changes the merged mapping. -/
theorem office_merge_order_dependent_cex :
    ([[("10", ({ NM := some "A" } : OfficeRec))], [("10", { NM := some "B" })]] :
        List (Assoc OfficeRec)).Perm
      [[("10", { NM := some "B" })], [("10", { NM := some "A" })]]
    ∧ lookupA (build_office_map
          [[("10", ({ NM := some "A" } : OfficeRec))], [("10", { NM := some "B" })]]) "10"
        ≠ lookupA (build_office_map
          [[("10", ({ NM := some "B" } : OfficeRec))], [("10", { NM := some "A" })]]) "10" :=
  ⟨List.Perm.swap _ _ _, by decide⟩

/-- C9 (amended): the merge of `build_office_map` gives a duplicate office
identifier the name of its last entry (last wins), and it is
order-independent exactly in the duplicate-free case: when the office
identifiers across `officeList` are pairwise distinct, any permutation of
the list yields an extensionally equal merged mapping. -/
theorem office_merge_last_wins_and_perm_of_nodup :
    (∀ (lst : List (Assoc OfficeRec)) (k : String) (r : OfficeRec),
      lookupA (build_office_map (lst ++ [[(k, r)]])) k = some (r.NM.getD ""))
    ∧ (∀ (l₁ l₂ : List (Assoc OfficeRec)), l₁.Perm l₂ → (allKeys l₁).Nodup →
      ∀ k, lookupA (build_office_map l₁) k = lookupA (build_office_map l₂) k) := by
  constructor
  · intro lst k r
    rw [build_office_map, foldl_nested_eq_foldl_flatten, List.flatten_append]
    simp only [List.flatten_cons, List.flatten_nil, List.append_nil]
    rw [List.foldl_append, List.foldl_cons, List.foldl_nil, officeInsert,
      lookupA_insertA, if_pos rfl]
  · intro l₁ l₂ hp hnd k
    have hflat : l₁.flatten.Perm l₂.flatten := flatten_perm hp
    have hnd1 : (l₁.flatten.map Prod.fst).Nodup := hnd
    have hnd2 : (l₂.flatten.map Prod.fst).Nodup :=
      ((hflat.map Prod.fst).nodup_iff).mp hnd1
    rw [lookupA_build_office_map, lookupA_build_office_map,
      lookupLast_eq_lookupA_of_nodup _ hnd1, lookupLast_eq_lookupA_of_nodup _ hnd2,
      lookupA_perm hflat hnd1 k]

/-- Witness for C9 (amended) at concrete inputs: appending an entry for "10"
wins the merge, and permuting a duplicate-free two-entry list leaves the
merged mapping unchanged. -/
theorem office_merge_witness :
    lookupA (build_office_map
        ([[("20", ({ NM := some "Clerk" } : OfficeRec))]]
          ++ [[("10", { NM := some "Mayor" })]])) "10" = some "Mayor"
    ∧ lookupA (build_office_map
        [[("10", ({ NM := some "Mayor" } : OfficeRec))],
         [("20", { NM := some "Clerk" })]]) "10"
      = lookupA (build_office_map
        [[("20", ({ NM := some "Clerk" } : OfficeRec))],
         [("10", { NM := some "Mayor" })]]) "10" :=
  ⟨office_merge_last_wins_and_perm_of_nodup.1 _ "10" _,
   office_merge_last_wins_and_perm_of_nodup.2 _ _ (List.Perm.swap _ _ _)
     (by decide) "10"⟩

/-- C10: localization never mutates its input: the aliasing models of
`to_es_results` and `to_es_turnout` return the English table exactly as it
was (in particular its party and precincts-reported columns), while their
first component is exactly the Spanish table the pure functions produce. -/
theorem localization_leaves_input_unchanged :
    (∀ df : List ResultRow, (to_es_results_st df).2 = df)
    ∧ (∀ df : List ResultRow,
        ((to_es_results_st df).2).map ResultRow.party = df.map ResultRow.party)
    ∧ (∀ df : List ResultRow, (to_es_results_st df).1 = to_es_results df)
    ∧ (∀ df : List TurnoutRow, (to_es_turnout_st df).2 = df)
    ∧ (∀ df : List TurnoutRow,
        ((to_es_turnout_st df).2).map TurnoutRow.precincts_reported
          = df.map TurnoutRow.precincts_reported)
    ∧ (∀ df : List TurnoutRow, (to_es_turnout_st df).1 = to_es_turnout df) := by
  refine ⟨fun df => ?_, fun df => ?_, fun df => ?_,
    fun df => ?_, fun df => ?_, fun df => ?_⟩
  · unfold to_es_results_st
    split <;> rfl
  · unfold to_es_results_st
    split <;> rfl
  · unfold to_es_results_st to_es_results
    split
    · rfl
    · simp [esResultRow, List.map_map, Function.comp_def]
  · unfold to_es_turnout_st
    split <;> rfl
  · unfold to_es_turnout_st
    split <;> rfl
  · unfold to_es_turnout_st to_es_turnout
    split
    · rfl
    · simp [esTurnoutRow, List.map_map, Function.comp_def]

end CtScraper
